import Mathlib

/-!
Verification of the demoviewer server and client logic.

The development shallowly embeds the relevant parts of the code:
* `areSidesSwapped`, `calculateMatchStats` from the server file,
* the positions endpoint (tick-range validation, the kills list, the
  grenade matcher, the blind-duration computation),
* the bomb-state resolver and yaw interpolation of `RoundVisualizer.tsx`.

JavaScript machine numbers are modelled as `Nat`/`Int`/`ℚ`; JS truthiness
of possibly-absent values is modelled on `Option` types; stable
`Array.prototype.sort` by tick is modelled by a stable insertion sort.
-/

namespace DemoViewer

/-- JS truthiness of an optional string (`undefined`/`null`/`""` are falsy). -/
def truthyStr : Option String → Bool
  | none => false
  | some s => s ≠ ""

/-- JS truthiness of an optional integer (`undefined`/`null`/`0` are falsy). -/
def truthyInt : Option Int → Bool
  | none => false
  | some n => n ≠ 0

/-- JS truthiness of an optional rational (`undefined`/`null`/`0` are falsy). -/
def truthyQ : Option ℚ → Bool
  | none => false
  | some q => q ≠ 0

/-- JS `haystack.includes(needle)` on strings: substring containment
(the empty needle is contained in every string). -/
def strIncludes (needle hay : String) : Bool :=
  hay.toList.tails.any (fun t => needle.toList.isPrefixOf t)

/-- Stable insertion into a list sorted ascending by `tick`; the new element
goes before the first strictly larger element, which keeps equal-tick
elements in their original relative order. -/
def insertByTick {α : Type} (tick : α → Nat) (e : α) : List α → List α
  | [] => [e]
  | x :: xs => if tick x ≤ tick e then x :: insertByTick tick e xs else e :: x :: xs

/-- Stable sort ascending by `tick`, modelling the stable JS
`arr.sort((a, b) => a.tick - b.tick)`. -/
def sortByTick {α : Type} (tick : α → Nat) : List α → List α
  | [] => []
  | x :: xs => insertByTick tick x (sortByTick tick xs)

theorem insertByTick_perm {α : Type} (tick : α → Nat) (e : α) (l : List α) :
    List.Perm (insertByTick tick e l) (e :: l) := by
  induction l with
  | nil => simp [insertByTick]
  | cons x xs ih =>
    simp only [insertByTick]
    by_cases h : tick x ≤ tick e
    · simp only [if_pos h]
      exact (List.Perm.cons x ih).trans (List.Perm.swap e x xs)
    · simp [if_neg h]

theorem sortByTick_perm {α : Type} (tick : α → Nat) (l : List α) :
    List.Perm (sortByTick tick l) l := by
  induction l with
  | nil => simp [sortByTick]
  | cons x xs ih =>
    exact (insertByTick_perm tick x (sortByTick tick xs)).trans (List.Perm.cons x ih)

theorem insertByTick_pairwise {α : Type} (tick : α → Nat) (e : α) (l : List α)
    (h : l.Pairwise (fun a b => tick a ≤ tick b)) :
    (insertByTick tick e l).Pairwise (fun a b => tick a ≤ tick b) := by
  induction l with
  | nil => simp [insertByTick]
  | cons x xs ih =>
    rcases List.pairwise_cons.mp h with ⟨hx, hxs⟩
    simp only [insertByTick]
    by_cases hle : tick x ≤ tick e
    · rw [if_pos hle]
      refine List.pairwise_cons.mpr ⟨?_, ih hxs⟩
      intro b hb
      rcases List.mem_cons.mp ((insertByTick_perm tick e xs).mem_iff.mp hb) with hb' | hb'
      · rw [hb']; exact hle
      · exact hx b hb'
    · rw [if_neg hle]
      refine List.pairwise_cons.mpr ⟨?_, h⟩
      intro b hb
      rcases List.mem_cons.mp hb with hb' | hb'
      · rw [hb']; omega
      · exact le_trans (by omega) (hx b hb')

theorem sortByTick_pairwise {α : Type} (tick : α → Nat) (l : List α) :
    (sortByTick tick l).Pairwise (fun a b => tick a ≤ tick b) := by
  induction l with
  | nil => simp [sortByTick]
  | cons x xs ih => exact insertByTick_pairwise tick x _ ih

/-- The value produced by `getLast?` is a member of the list. -/
theorem memOfGetLast {α : Type} : ∀ (l : List α) (m : α), l.getLast? = some m → m ∈ l
  | [], m, h => by simp at h
  | [a], m, h => by
    simp [List.getLast?] at h
    simp [h]
  | a :: b :: l, m, h => by
    rw [List.getLast?_cons_cons] at h
    exact List.mem_cons_of_mem a (memOfGetLast (b :: l) m h)

/-- In a list sorted ascending by tick, the last element has the greatest tick. -/
theorem getLast?_tick_ge {α : Type} (tick : α → Nat) (l : List α)
    (h : l.Pairwise (fun a b => tick a ≤ tick b)) :
    ∀ m, l.getLast? = some m → ∀ b ∈ l, tick b ≤ tick m := by
  induction l with
  | nil => intro m hm; simp at hm
  | cons x xs ih =>
    intro m hm b hb
    rcases List.pairwise_cons.mp h with ⟨hx, hxs⟩
    cases xs with
    | nil =>
      simp [List.getLast?] at hm
      rcases List.mem_singleton.mp hb with hb'
      rw [hb', hm]
    | cons y ys =>
      rw [List.getLast?_cons_cons] at hm
      rcases List.mem_cons.mp hb with hb' | hb'
      · rw [hb']
        exact hx m (memOfGetLast (y :: ys) m hm)
      · exact ih hxs m hm b hb'

/-!  ## `areSidesSwapped` (server)

```js
function areSidesSwapped(roundNumber) {
    if (roundNumber <= 12) return false;  // First half
    if (roundNumber <= 24) return true;   // Second half
    // Overtime: alternates every 3 rounds
    const otRound = roundNumber - 24;
    const otHalf = Math.ceil(otRound / 3);
    return otHalf % 2 === 0;
}
```
Round numbers are positive integers; `Math.ceil(n / 3)` on a positive
integer `n` is `(n + 2) / 3` in natural division. -/

def areSidesSwapped (roundNumber : Nat) : Bool :=
  if roundNumber ≤ 12 then false
  else if roundNumber ≤ 24 then true
  else ((roundNumber - 24) + 2) / 3 % 2 == 0

/-! ## `calculateMatchStats` (server) -/

/-- The raw `winner` field of a `round_end` event as delivered by the demo
parser: a string, a number, or absent. -/
inductive WinnerVal where
  | wstr (s : String)
  | wnum (n : Int)
  | wnone
deriving Repr, DecidableEq

/-- JS loose equality `w == n` between the raw winner value and a number
literal (`undefined == n` is false; a string converts to its numeric value,
modelled here for canonical decimal strings). -/
def looseEqNum (w : WinnerVal) (n : Int) : Bool :=
  match w with
  | .wnum m => m == n
  | .wstr s => s == toString n
  | .wnone => false

/-- Winner normalization of `calculateMatchStats`:
`e.winner === 'T' || e.winner == 2` gives T (2),
`e.winner === 'CT' || e.winner == 3` gives CT (3), anything else is
invalid (`winnerTeam` stays `null`). -/
def normWinner (w : WinnerVal) : Option Nat :=
  if w == .wstr "T" || looseEqNum w 2 then some 2
  else if w == .wstr "CT" || looseEqNum w 3 then some 3
  else none

/-- A game event, restricted to the fields `calculateMatchStats` reads.
Absent fields are `none`. -/
structure GEvent where
  event_name : String
  tick : Nat
  user_steamid : Option String := none
  user_name : Option String := none
  attacker_steamid : Option String := none
  attacker_name : Option String := none
  assister_steamid : Option String := none
  assister_name : Option String := none
  team : Option Int := none
  winner : WinnerVal := .wnone
  reason : Option Int := none
  headshot : Bool := false
  dmg_health : Nat := 0
deriving Repr, DecidableEq

structure Player where
  steamid : String
  name : String
  team : Option Int
  startingTeam : Option Int
  kills : Nat
  deaths : Nat
  assists : Nat
  headshots : Nat
  damage : Nat
deriving Repr, DecidableEq

/-- The `createPlayer` helper (`name: name || 'Unknown'`). -/
def createPlayer (steamid : String) (name : Option String) : Player :=
  { steamid := steamid
    name := if truthyStr name then name.getD "" else "Unknown"
    team := none, startingTeam := none
    kills := 0, deaths := 0, assists := 0, headshots := 0, damage := 0 }

/-- The `players` object: a map keyed by steamid in insertion order. -/
abbrev PlayerMap := List Player

def lookupP (ps : PlayerMap) (sid : String) : Option Player :=
  ps.find? (fun p => p.steamid == sid)

def updateP (ps : PlayerMap) (sid : String) (f : Player → Player) : PlayerMap :=
  ps.map (fun p => if p.steamid == sid then f p else p)

/-- The `getPlayer` helper: returns `null` for a falsy steamid; otherwise
creates the player on first sight and refreshes the stored name when a
truthy name is supplied.  JS returns a mutable reference into the map;
since the map is keyed by steamid, the reference is modelled by the
steamid (`none` models a `null` return), and later mutations through it
become `updateP` at that key. -/

def setName (n : String) (p : Player) : Player := { p with name := n }

def getPlayer (ps : PlayerMap) (sid? : Option String) (name? : Option String) :
    PlayerMap × Option String :=
  if !truthyStr sid? then (ps, none)
  else
    let sid := sid?.getD ""
    let ps1 := if (lookupP ps sid).isSome then ps else ps ++ [createPlayer sid name?]
    let ps2 := if truthyStr name? then updateP ps1 sid (setName (name?.getD "")) else ps1
    (ps2, some sid)

structure RoundRec where
  round : Nat
  winner : Nat
  reason : Option Int
  tick : Nat
  startTick : Nat
  endTick : Nat
deriving Repr, DecidableEq

/-- Mutable state of the `events.forEach` loop of `calculateMatchStats`. -/
structure MState where
  players : PlayerMap
  tScore : Nat
  ctScore : Nat
  validRounds : Nat
  rounds : List RoundRec
  lastRoundStartTick : Nat
deriving Repr, DecidableEq

def initState : MState := ⟨[], 0, 0, 0, [], 0⟩

/-- Mutation `p.damage += d` of the `player_hurt` handler. -/
def addDamage (d : Nat) (p : Player) : Player := { p with damage := p.damage + d }

/-- Mutation `p.deaths++` of the `player_death` handler. -/
def addDeath (p : Player) : Player := { p with deaths := p.deaths + 1 }

/-- Mutations `p.kills++` and conditional `p.headshots++`. -/
def addKill (hs : Bool) (p : Player) : Player :=
  { p with kills := p.kills + 1, headshots := if hs then p.headshots + 1 else p.headshots }

/-- Mutation `p.assists++` of the `player_death` handler. -/
def addAssist (p : Player) : Player := { p with assists := p.assists + 1 }

/-- Team assignment of the `player_team` handler: set `startingTeam` on
first assignment, always set `team`. -/
def applyTeam (t : Option Int) (p : Player) : Player :=
  { p with startingTeam := if p.startingTeam == none then t else p.startingTeam, team := t }

/-- One iteration of the `events.forEach` loop. -/
def stepEvent (s : MState) (e : GEvent) : MState :=
  if e.event_name == "player_team" then
    if truthyStr e.user_steamid then
      let (ps, pref) := getPlayer s.players e.user_steamid e.user_name
      match pref with
      | none => { s with players := ps }
      | some sid =>
        if e.team == some 2 || e.team == some 3 then
          { s with players := updateP ps sid (applyTeam e.team) }
        else { s with players := ps }
    else s
  else if e.event_name == "round_freeze_end" then
    { s with lastRoundStartTick := e.tick }
  else if e.event_name == "round_end" then
    match normWinner e.winner with
    | none => s
    | some winnerTeam =>
      let validRounds := s.validRounds + 1
      let swapped := areSidesSwapped validRounds
      let scoreTeam := if swapped then (if winnerTeam == 2 then 3 else 2) else winnerTeam
      { s with
        validRounds := validRounds
        tScore := if scoreTeam == 2 then s.tScore + 1 else s.tScore
        ctScore := if scoreTeam == 2 then s.ctScore else s.ctScore + 1
        rounds := s.rounds ++
          [⟨validRounds, winnerTeam, e.reason, e.tick, s.lastRoundStartTick, e.tick⟩] }
  else if e.event_name == "player_death" then
    let (ps1, killer) := getPlayer s.players e.attacker_steamid e.attacker_name
    let (ps2, victim) := getPlayer ps1 e.user_steamid e.user_name
    let (ps3, assister) := getPlayer ps2 e.assister_steamid e.assister_name
    let ps4 := match victim with
      | some v => updateP ps3 v addDeath
      | none => ps3
    let ps5 := match killer with
      | some k =>
        if killer != victim then updateP ps4 k (addKill e.headshot) else ps4
      | none => ps4
    let ps6 := match assister with
      | some a => updateP ps5 a addAssist
      | none => ps5
    { s with players := ps6 }
  else if e.event_name == "player_hurt" then
    let (ps1, attacker) := getPlayer s.players e.attacker_steamid e.attacker_name
    let (ps2, victim) := getPlayer ps1 e.user_steamid e.user_name
    match attacker, victim with
    | some a, some v =>
      if a != v then
        let ap := (lookupP ps2 a).getD (createPlayer a none)
        let vp := (lookupP ps2 v).getD (createPlayer v none)
        let sameTeam := truthyInt ap.team && truthyInt vp.team && ap.team == vp.team
        if !sameTeam then
          { s with players := updateP ps2 a (addDamage e.dmg_health) }
        else { s with players := ps2 }
      else { s with players := ps2 }
    | _, _ => { s with players := ps2 }
  else s

/-- JS `x.toFixed(1)`, as its numeric value: the multiple of `1/10` whose
numerator is the integer closest to `10 * x`, ties resolved to the larger
integer.  (The JS call yields the decimal string of this value.) -/
def toFixed1 (q : ℚ) : ℚ := (⌊q * 10 + 1 / 2⌋ : ℚ) / 10

structure PlayerOut where
  steamid : String
  name : String
  team : Option Int
  startingTeam : Option Int
  kills : Nat
  deaths : Nat
  assists : Nat
  headshots : Nat
  damage : Nat
  adr : ℚ
deriving Repr, DecidableEq

structure MatchStats where
  scoreT : Nat
  scoreCT : Nat
  totalRounds : Nat
  rounds : List RoundRec
  players : List PlayerOut
deriving Repr, DecidableEq

/-- Output player record: `p.adr = validRounds > 0 ? (p.damage / validRounds).toFixed(1) : 0`. -/
def mkPlayerOut (validRounds : Nat) (p : Player) : PlayerOut :=
  { steamid := p.steamid, name := p.name, team := p.team, startingTeam := p.startingTeam
    kills := p.kills, deaths := p.deaths, assists := p.assists, headshots := p.headshots
    damage := p.damage
    adr := if validRounds > 0 then toFixed1 ((p.damage : ℚ) / validRounds) else 0 }

/-- The function `calculateMatchStats`: sort the events by tick (stable), fold the
per-event loop body over them, then filter the player list to those with a
T/CT starting team and attach `adr`. -/
def calculateMatchStats (events : List GEvent) : MatchStats :=
  let s := (sortByTick GEvent.tick events).foldl stepEvent initState
  let playerList := s.players.filter
    (fun p => p.startingTeam == some 2 || p.startingTeam == some 3)
  { scoreT := s.tScore, scoreCT := s.ctScore, totalRounds := s.validRounds
    rounds := s.rounds, players := playerList.map (mkPlayerOut s.validRounds) }

/-- C2: `areSidesSwapped(round)` is false for every round in [1,12], true
for every round in [13,24], and for rounds beyond 24 is true exactly when
`ceil((round − 24)/3)` (in natural arithmetic, `((round − 24) + 2) / 3`)
is even; the pattern repeats with period 6 from round 25 on.  It depends
only on the round index, being a function of it. -/
theorem c2_areSidesSwapped_schedule (r : Nat) :
    (1 ≤ r → r ≤ 12 → areSidesSwapped r = false) ∧
    (13 ≤ r → r ≤ 24 → areSidesSwapped r = true) ∧
    (25 ≤ r → (areSidesSwapped r = true ↔ ((r - 24) + 2) / 3 % 2 = 0)) ∧
    (25 ≤ r → areSidesSwapped (r + 6) = areSidesSwapped r) := by
  refine ⟨fun h1 h2 => ?_, fun h1 h2 => ?_, fun h => ?_, fun h => ?_⟩
  · simp [areSidesSwapped, h2]
  · have : ¬ r ≤ 12 := by omega
    simp [areSidesSwapped, this, h2]
  · have h12 : ¬ r ≤ 12 := by omega
    have h24 : ¬ r ≤ 24 := by omega
    simp [areSidesSwapped, h12, h24]
  · have h12 : ¬ r ≤ 12 := by omega
    have h24 : ¬ r ≤ 24 := by omega
    have h12' : ¬ r + 6 ≤ 12 := by omega
    have h24' : ¬ r + 6 ≤ 24 := by omega
    simp only [areSidesSwapped, if_neg h12, if_neg h24, if_neg h12', if_neg h24']
    have hdiv : (r + 6 - 24 + 2) / 3 % 2 = (r - 24 + 2) / 3 % 2 := by omega
    rw [hdiv]

theorem c2_areSidesSwapped_schedule_witness :
    areSidesSwapped 5 = false ∧ areSidesSwapped 13 = true ∧
    (areSidesSwapped 26 = true ↔ ((26 - 24) + 2) / 3 % 2 = 0) ∧
    areSidesSwapped 34 = areSidesSwapped 28 :=
  ⟨(c2_areSidesSwapped_schedule 5).1 (by norm_num) (by norm_num),
   (c2_areSidesSwapped_schedule 13).2.1 (by norm_num) (by norm_num),
   (c2_areSidesSwapped_schedule 26).2.2.1 (by norm_num),
   (c2_areSidesSwapped_schedule 28).2.2.2 (by norm_num)⟩

/-! ### Helper lemmas about the player map and the step function -/

/-- Accumulated damage of a steamid in the map (0 when absent). -/
def damageOf (ps : PlayerMap) (sid : String) : Nat :=
  ((lookupP ps sid).map Player.damage).getD 0

/-- Stored team of a steamid in the map (`none` when absent or unset). -/
def teamOf (ps : PlayerMap) (sid : String) : Option Int :=
  ((lookupP ps sid).map Player.team).getD none

theorem lookupP_updateP (ps : PlayerMap) (sid x : String) (f : Player → Player)
    (hsid : ∀ p, (f p).steamid = p.steamid) :
    lookupP (updateP ps sid f) x =
      (lookupP ps x).map (fun p => if p.steamid == sid then f p else p) := by
  induction ps with
  | nil => rfl
  | cons p ps ih =>
    have hgoal : lookupP (updateP (p :: ps) sid f) x =
        lookupP ((if p.steamid == sid then f p else p) :: updateP ps sid f) x := rfl
    rw [hgoal]
    by_cases hs : p.steamid = sid
    · rw [if_pos (by simpa using hs)]
      by_cases hx : p.steamid = x
      · rw [show lookupP (f p :: updateP ps sid f) x = some (f p) from
            @List.find?_cons_of_pos _ (fun (q : Player) => q.steamid == x) (f p) _
              (by simp [hsid p, hx])]
        rw [show lookupP (p :: ps) x = some p from
            @List.find?_cons_of_pos _ (fun (q : Player) => q.steamid == x) p _ (by simp [hx])]
        simp [hs]
      · rw [show lookupP (f p :: updateP ps sid f) x = lookupP (updateP ps sid f) x from
            @List.find?_cons_of_neg _ (fun (q : Player) => q.steamid == x) (f p) _
              (by simp [hsid p, hx])]
        rw [show lookupP (p :: ps) x = lookupP ps x from
            @List.find?_cons_of_neg _ (fun (q : Player) => q.steamid == x) p _ (by simp [hx])]
        exact ih
    · rw [if_neg (by simpa using hs)]
      by_cases hx : p.steamid = x
      · rw [show lookupP (p :: updateP ps sid f) x = some p from
            @List.find?_cons_of_pos _ (fun (q : Player) => q.steamid == x) p _ (by simp [hx])]
        rw [show lookupP (p :: ps) x = some p from
            @List.find?_cons_of_pos _ (fun (q : Player) => q.steamid == x) p _ (by simp [hx])]
        simp [hs]
      · rw [show lookupP (p :: updateP ps sid f) x = lookupP (updateP ps sid f) x from
            @List.find?_cons_of_neg _ (fun (q : Player) => q.steamid == x) p _ (by simp [hx])]
        rw [show lookupP (p :: ps) x = lookupP ps x from
            @List.find?_cons_of_neg _ (fun (q : Player) => q.steamid == x) p _ (by simp [hx])]
        exact ih

theorem lookupP_append_create (ps : PlayerMap) (sid : String) (name : Option String)
    (x : String) :
    lookupP (ps ++ [createPlayer sid name]) x =
      ((lookupP ps x).orElse
        (fun _ => if sid = x then some (createPlayer sid name) else none)) := by
  induction ps with
  | nil =>
    show lookupP [createPlayer sid name] x = _
    unfold lookupP
    by_cases h : sid = x
    · rw [List.find?_cons_of_pos _ (by simp [createPlayer, h])]
      simp [h, Option.orElse]
    · rw [List.find?_cons_of_neg _ (by simp [createPlayer, h])]
      simp [h, Option.orElse]
  | cons p ps ih =>
    show lookupP (p :: (ps ++ [createPlayer sid name])) x = _
    unfold lookupP
    by_cases hx : p.steamid = x
    · rw [List.find?_cons_of_pos _ (by simp [hx]), List.find?_cons_of_pos _ (by simp [hx])]
      simp [Option.orElse]
    · rw [List.find?_cons_of_neg _ (by simp [hx]), List.find?_cons_of_neg _ (by simp [hx])]
      exact ih

theorem damageOf_updateP_pres (ps : PlayerMap) (sid x : String) (f : Player → Player)
    (hsid : ∀ p, (f p).steamid = p.steamid) (hdmg : ∀ p, (f p).damage = p.damage) :
    damageOf (updateP ps sid f) x = damageOf ps x := by
  unfold damageOf
  rw [lookupP_updateP ps sid x f hsid]
  cases lookupP ps x with
  | none => rfl
  | some p => by_cases h : p.steamid = sid <;> simp [h, hdmg p]

theorem damageOf_append_create (ps : PlayerMap) (sid : String) (name : Option String)
    (x : String) :
    damageOf (ps ++ [createPlayer sid name]) x = damageOf ps x := by
  unfold damageOf
  rw [lookupP_append_create]
  cases lookupP ps x with
  | none =>
    by_cases h : sid = x
    · simp [Option.orElse, h, createPlayer]
    · simp [Option.orElse, h]
  | some p => simp [Option.orElse]

theorem damageOf_getPlayer (ps : PlayerMap) (sid? name? : Option String) (x : String) :
    damageOf (getPlayer ps sid? name?).1 x = damageOf ps x := by
  unfold getPlayer
  by_cases h : truthyStr sid? = true
  · rw [if_neg (by simp [h])]
    dsimp only
    by_cases hmem : (lookupP ps (sid?.getD "")).isSome
    · rw [if_pos hmem]
      by_cases hn : truthyStr name? = true
      · rw [if_pos hn]
        exact damageOf_updateP_pres ps _ x _ (fun p => rfl) (fun p => rfl)
      · rw [if_neg hn]
    · rw [if_neg hmem]
      by_cases hn : truthyStr name? = true
      · rw [if_pos hn]
        rw [damageOf_updateP_pres (ps ++ [createPlayer (sid?.getD "") name?]) (sid?.getD "") x
              (setName (name?.getD "")) (fun p => rfl) (fun p => rfl)]
        exact damageOf_append_create ps _ name? x
      · rw [if_neg hn]
        exact damageOf_append_create ps _ name? x
  · rw [if_pos (by simp [h])]

theorem teamOf_updateP_pres (ps : PlayerMap) (sid x : String) (f : Player → Player)
    (hsid : ∀ p, (f p).steamid = p.steamid) (htm : ∀ p, (f p).team = p.team) :
    teamOf (updateP ps sid f) x = teamOf ps x := by
  unfold teamOf
  rw [lookupP_updateP ps sid x f hsid]
  cases lookupP ps x with
  | none => rfl
  | some p => by_cases h : p.steamid = sid <;> simp [h, htm p]

theorem teamOf_append_create (ps : PlayerMap) (sid : String) (name : Option String)
    (x : String) :
    teamOf (ps ++ [createPlayer sid name]) x = teamOf ps x := by
  unfold teamOf
  rw [lookupP_append_create]
  cases lookupP ps x with
  | none =>
    by_cases h : sid = x
    · simp [Option.orElse, h, createPlayer]
    · simp [Option.orElse, h]
  | some p => simp [Option.orElse]

theorem teamOf_getPlayer (ps : PlayerMap) (sid? name? : Option String) (x : String) :
    teamOf (getPlayer ps sid? name?).1 x = teamOf ps x := by
  unfold getPlayer
  by_cases h : truthyStr sid? = true
  · rw [if_neg (by simp [h])]
    dsimp only
    by_cases hmem : (lookupP ps (sid?.getD "")).isSome
    · rw [if_pos hmem]
      by_cases hn : truthyStr name? = true
      · rw [if_pos hn]
        exact teamOf_updateP_pres ps _ x _ (fun p => rfl) (fun p => rfl)
      · rw [if_neg hn]
    · rw [if_neg hmem]
      by_cases hn : truthyStr name? = true
      · rw [if_pos hn]
        rw [teamOf_updateP_pres (ps ++ [createPlayer (sid?.getD "") name?]) (sid?.getD "") x
              (setName (name?.getD "")) (fun p => rfl) (fun p => rfl)]
        exact teamOf_append_create ps _ name? x
      · rw [if_neg hn]
        exact teamOf_append_create ps _ name? x
  · rw [if_pos (by simp [h])]

/-- The helper `getPlayer` returns a reference exactly when the steamid is truthy. -/
theorem getPlayer_ref (ps : PlayerMap) (sid? name? : Option String) :
    (getPlayer ps sid? name?).2 =
      if truthyStr sid? then some (sid?.getD "") else none := by
  unfold getPlayer
  by_cases h : truthyStr sid? = true
  · rw [if_neg (by simp [h]), if_pos h]
  · rw [if_pos (by simp [h]), if_neg h]

/-- Lookup after `updateP` with a steamid-preserving function is `some`
exactly when it was before. -/
theorem lookupP_updateP_isSome (ps : PlayerMap) (sid x : String) (f : Player → Player)
    (hsid : ∀ p, (f p).steamid = p.steamid) :
    (lookupP (updateP ps sid f) x).isSome = (lookupP ps x).isSome := by
  rw [lookupP_updateP ps sid x f hsid]
  cases lookupP ps x <;> rfl

theorem lookupP_append_create_isSome (ps : PlayerMap) (sid : String)
    (name : Option String) (x : String) :
    (lookupP (ps ++ [createPlayer sid name]) x).isSome =
      ((lookupP ps x).isSome || (sid == x)) := by
  rw [lookupP_append_create]
  cases lookupP ps x with
  | none =>
    by_cases hsx : sid = x
    · simp [Option.orElse, hsx]
    · simp [Option.orElse, hsx]
  | some p => simp [Option.orElse]

/-- After `getPlayer`, a steamid is present iff it was present before or it
is the (truthy) steamid just ensured. -/
theorem lookupP_getPlayer_isSome (ps : PlayerMap) (sid? name? : Option String)
    (x : String) :
    (lookupP (getPlayer ps sid? name?).1 x).isSome =
      ((lookupP ps x).isSome || (truthyStr sid? && (sid?.getD "" == x))) := by
  unfold getPlayer
  by_cases h : truthyStr sid? = true
  · rw [if_neg (by simp [h])]
    dsimp only
    have step2 : ∀ ps1 : PlayerMap,
        (lookupP (if truthyStr name? = true then
            updateP ps1 (sid?.getD "") (setName (name?.getD "")) else ps1) x).isSome =
          (lookupP ps1 x).isSome := by
      intro ps1
      by_cases hn : truthyStr name? = true
      · rw [if_pos hn]
        exact lookupP_updateP_isSome ps1 (sid?.getD "") x (setName (name?.getD ""))
          (fun p => rfl)
      · rw [if_neg hn]
    by_cases hmem : (lookupP ps (sid?.getD "")).isSome
    · rw [if_pos hmem, step2 ps, h]
      by_cases hsx : sid?.getD "" = x
      · rw [hsx] at hmem
        simp [hmem, hsx]
      · simp [hsx]
    · rw [if_neg hmem, step2 (ps ++ [createPlayer (sid?.getD "") name?]),
          lookupP_append_create_isSome, h]
      simp
  · rw [if_pos (by simp [h])]
    have hf : truthyStr sid? = false := by simpa using h
    simp [hf]

/-- Any event other than a `round_end` leaves scores, the valid-round
counter and the round history unchanged (it only touches the player map or
`lastRoundStartTick`). -/
theorem stepEvent_not_round_end (s : MState) (e : GEvent)
    (hne : (e.event_name == "round_end") = false) :
    (stepEvent s e).tScore = s.tScore ∧ (stepEvent s e).ctScore = s.ctScore ∧
    (stepEvent s e).validRounds = s.validRounds ∧ (stepEvent s e).rounds = s.rounds := by
  unfold stepEvent
  rw [hne]
  refine ⟨?_, ?_, ?_, ?_⟩ <;>
    · repeat' split
      all_goals first
        | rfl
        | (simp_all; repeat' split; all_goals rfl)

/-- A `round_end` event whose winner does not normalize changes nothing. -/
theorem stepEvent_round_end_none (s : MState) (e : GEvent)
    (hre : e.event_name = "round_end") (hw : normWinner e.winner = none) :
    stepEvent s e = s := by
  unfold stepEvent
  rw [hre, hw]
  rfl

/-- A `round_end` event with a normalizable winner increments the
valid-round counter by one, increments exactly one of the two side scores
and appends one round record. -/
theorem stepEvent_round_end_some (s : MState) (e : GEvent) (w : Nat)
    (hre : e.event_name = "round_end") (hw : normWinner e.winner = some w) :
    (stepEvent s e).validRounds = s.validRounds + 1 ∧
    (((stepEvent s e).tScore = s.tScore + 1 ∧ (stepEvent s e).ctScore = s.ctScore) ∨
     ((stepEvent s e).tScore = s.tScore ∧ (stepEvent s e).ctScore = s.ctScore + 1)) ∧
    (stepEvent s e).rounds = s.rounds ++
      [⟨s.validRounds + 1, w, e.reason, e.tick, s.lastRoundStartTick, e.tick⟩] := by
  unfold stepEvent
  rw [hre, hw]
  refine ⟨?_, ?_, ?_⟩
  · repeat' split
    all_goals first | rfl | simp_all
  · repeat' split
    all_goals simp_all
  · repeat' split
    all_goals first | rfl | simp_all

/-- The score-sum invariant is preserved along the event fold. -/
theorem foldl_score_invariant (l : List GEvent) (s : MState)
    (h : s.tScore + s.ctScore = s.validRounds) :
    (l.foldl stepEvent s).tScore + (l.foldl stepEvent s).ctScore =
      (l.foldl stepEvent s).validRounds := by
  induction l generalizing s with
  | nil => exact h
  | cons e l ih =>
    apply ih
    by_cases hre : (e.event_name == "round_end") = true
    · have hre' : e.event_name = "round_end" := by simpa using hre
      cases hw : normWinner e.winner with
      | none => rw [stepEvent_round_end_none s e hre' hw]; exact h
      | some w =>
        obtain ⟨h1, h2, _⟩ := stepEvent_round_end_some s e w hre' hw
        rcases h2 with ⟨ht, hc⟩ | ⟨ht, hc⟩ <;> omega
    · obtain ⟨h1, h2, h3, _⟩ := stepEvent_not_round_end s e (by simpa using hre)
      omega

/-- Crediting damage to a present steamid adds exactly to that entry. -/
theorem damageOf_updateP_addDamage (ps : PlayerMap) (sid x : String) (n : Nat)
    (hmem : (lookupP ps sid).isSome = true) :
    damageOf (updateP ps sid (addDamage n)) x =
      damageOf ps x + (if x = sid then n else 0) := by
  unfold damageOf
  rw [lookupP_updateP ps sid x (addDamage n) (fun p => rfl)]
  cases hpx : lookupP ps x with
  | none =>
    by_cases hx : x = sid
    · rw [hx] at hpx
      rw [hpx] at hmem
      simp at hmem
    · simp [hx]
  | some p =>
    have hpsx : p.steamid = x := by simpa using (List.find?_some hpx)
    by_cases hx : x = sid
    · simp [hpsx, hx, addDamage]
    · have hf : ¬p.steamid = sid := by rw [hpsx]; exact hx
      simp [hf, hx]

/-- The team of the player object obtained with a `createPlayer` default is
the stored team (`none` when the player is absent). -/
theorem getD_createPlayer_team (ps : PlayerMap) (sid : String) :
    ((lookupP ps sid).getD (createPlayer sid none)).team = teamOf ps sid := by
  unfold teamOf
  cases lookupP ps sid with
  | none => simp [createPlayer]
  | some p => simp

/-! ### Claim theorems about `calculateMatchStats` -/

/-- C3: for every input event sequence the output satisfies
`score.t + score.ct = totalRounds`; moreover, per step: a `round_end` with
a normalizable winner increments the valid-round counter by exactly one
and exactly one of the two side scores, a `round_end` whose winner does
not normalize changes nothing, and every other event changes neither
score nor the counter. -/
theorem c3_score_sum_eq_totalRounds (events : List GEvent) (s : MState) (e : GEvent) :
    ((calculateMatchStats events).scoreT + (calculateMatchStats events).scoreCT =
      (calculateMatchStats events).totalRounds) ∧
    ((e.event_name == "round_end") = false →
      (stepEvent s e).tScore = s.tScore ∧ (stepEvent s e).ctScore = s.ctScore ∧
      (stepEvent s e).validRounds = s.validRounds) ∧
    (e.event_name = "round_end" → normWinner e.winner = none → stepEvent s e = s) ∧
    (∀ w, e.event_name = "round_end" → normWinner e.winner = some w →
      (stepEvent s e).validRounds = s.validRounds + 1 ∧
      (((stepEvent s e).tScore = s.tScore + 1 ∧ (stepEvent s e).ctScore = s.ctScore) ∨
       ((stepEvent s e).tScore = s.tScore ∧ (stepEvent s e).ctScore = s.ctScore + 1))) := by
  refine ⟨?_, ?_, ?_, ?_⟩
  · exact foldl_score_invariant (sortByTick GEvent.tick events) initState rfl
  · intro h
    obtain ⟨h1, h2, h3, _⟩ := stepEvent_not_round_end s e h
    exact ⟨h1, h2, h3⟩
  · exact stepEvent_round_end_none s e
  · intro w h1 h2
    obtain ⟨ha, hb, _⟩ := stepEvent_round_end_some s e w h1 h2
    exact ⟨ha, hb⟩

/-- A `player_team` event putting steamid "A" (named Alice) on side T. -/
def evTeamA : GEvent :=
  { event_name := "player_team", tick := 1, user_steamid := some "A"
    user_name := some "Alice", team := some 2 }

/-- A `player_hurt` event: "A" hits "V" for 50 damage. -/
def evHurtAV : GEvent :=
  { event_name := "player_hurt", tick := 2, attacker_steamid := some "A"
    attacker_name := some "Alice", user_steamid := some "V"
    user_name := some "Vic", dmg_health := 50 }

/-- A `round_end` event won by the T side at tick `t`. -/
def evRoundT (t : Nat) : GEvent :=
  { event_name := "round_end", tick := t, winner := .wstr "T" }

theorem c3_score_sum_eq_totalRounds_witness :
    ((calculateMatchStats [evTeamA, evHurtAV, evRoundT 3]).scoreT +
        (calculateMatchStats [evTeamA, evHurtAV, evRoundT 3]).scoreCT =
      (calculateMatchStats [evTeamA, evHurtAV, evRoundT 3]).totalRounds) ∧
    ((stepEvent initState evTeamA).tScore = initState.tScore) ∧
    (stepEvent initState { event_name := "round_end", tick := 0 } = initState) ∧
    ((stepEvent initState (evRoundT 3)).validRounds = initState.validRounds + 1) :=
  ⟨(c3_score_sum_eq_totalRounds [evTeamA, evHurtAV, evRoundT 3] initState evTeamA).1,
   ((c3_score_sum_eq_totalRounds [] initState evTeamA).2.1 (by decide)).1,
   (c3_score_sum_eq_totalRounds [] initState
      { event_name := "round_end", tick := 0 }).2.2.1 rfl rfl,
   ((c3_score_sum_eq_totalRounds [] initState (evRoundT 3)).2.2.2 2 rfl rfl).1⟩

/-- The crediting condition of the `player_hurt` handler, in terms of the
incoming player map: both steamids truthy, referring to different
players, and the pair is not known to be same-team (a missing or unknown
side fails the `sameTeam` test, so such damage is credited). -/
def hurtCredited (ps : PlayerMap) (e : GEvent) : Bool :=
  truthyStr e.attacker_steamid && truthyStr e.user_steamid &&
  !(e.attacker_steamid.getD "" == e.user_steamid.getD "") &&
  !(truthyInt (teamOf ps (e.attacker_steamid.getD "")) &&
    truthyInt (teamOf ps (e.user_steamid.getD "")) &&
    (teamOf ps (e.attacker_steamid.getD "") == teamOf ps (e.user_steamid.getD "")))

theorem c1_hurt_damage_rule (s : MState) (e : GEvent)
    (hname : e.event_name = "player_hurt") (x : String) :
    damageOf (stepEvent s e).players x =
      damageOf s.players x +
        (if hurtCredited s.players e = true ∧ x = e.attacker_steamid.getD ""
         then e.dmg_health else 0) := by
  unfold stepEvent
  rw [hname]
  rw [if_neg (by decide), if_neg (by decide), if_neg (by decide), if_neg (by decide),
      if_pos (by decide)]
  cases hg1 : getPlayer s.players e.attacker_steamid e.attacker_name with
  | mk ps1 aref =>
  dsimp only
  cases hg2 : getPlayer ps1 e.user_steamid e.user_name with
  | mk ps2 vref =>
  dsimp only
  have hd1 : damageOf ps1 x = damageOf s.players x := by
    rw [show ps1 = (getPlayer s.players e.attacker_steamid e.attacker_name).1 by rw [hg1]]
    exact damageOf_getPlayer s.players e.attacker_steamid e.attacker_name x
  have hd2 : damageOf ps2 x = damageOf ps1 x := by
    rw [show ps2 = (getPlayer ps1 e.user_steamid e.user_name).1 by rw [hg2]]
    exact damageOf_getPlayer ps1 e.user_steamid e.user_name x
  have haref : aref = if truthyStr e.attacker_steamid then
      some (e.attacker_steamid.getD "") else none := by
    rw [show aref = (getPlayer s.players e.attacker_steamid e.attacker_name).2 by rw [hg1]]
    exact getPlayer_ref s.players e.attacker_steamid e.attacker_name
  have hvref : vref = if truthyStr e.user_steamid then
      some (e.user_steamid.getD "") else none := by
    rw [show vref = (getPlayer ps1 e.user_steamid e.user_name).2 by rw [hg2]]
    exact getPlayer_ref ps1 e.user_steamid e.user_name
  by_cases hta : truthyStr e.attacker_steamid = true
  · by_cases htv : truthyStr e.user_steamid = true
    · rw [if_pos hta] at haref
      rw [if_pos htv] at hvref
      rw [haref, hvref]
      dsimp only
      by_cases hav : e.attacker_steamid.getD "" = e.user_steamid.getD ""
      · rw [if_neg (by simp [hav])]
        have hcf : hurtCredited s.players e = false := by
          unfold hurtCredited
          simp [hav]
        simp [hcf, hd2.trans hd1]
      · rw [if_pos (by simp [hav])]
        have hteam2 : ∀ y, teamOf ps2 y = teamOf s.players y := by
          intro y
          rw [show ps2 = (getPlayer ps1 e.user_steamid e.user_name).1 by rw [hg2],
              teamOf_getPlayer,
              show ps1 = (getPlayer s.players e.attacker_steamid e.attacker_name).1 by
                rw [hg1],
              teamOf_getPlayer]
        have hmem2 : (lookupP ps2 (e.attacker_steamid.getD "")).isSome = true := by
          rw [show ps2 = (getPlayer ps1 e.user_steamid e.user_name).1 by rw [hg2],
              lookupP_getPlayer_isSome,
              show ps1 = (getPlayer s.players e.attacker_steamid e.attacker_name).1 by
                rw [hg1],
              lookupP_getPlayer_isSome]
          simp [hta]
        simp only [getD_createPlayer_team, hteam2]
        by_cases hst : (truthyInt (teamOf s.players (e.attacker_steamid.getD "")) &&
            truthyInt (teamOf s.players (e.user_steamid.getD "")) &&
            (teamOf s.players (e.attacker_steamid.getD "") ==
              teamOf s.players (e.user_steamid.getD ""))) = true
        · rw [if_neg (by simp [hst])]
          have hcf : hurtCredited s.players e = false := by
            unfold hurtCredited
            simp [hst]
          simp [hcf, hd2.trans hd1]
        · rw [if_pos (by simp [hst])]
          dsimp only
          rw [damageOf_updateP_addDamage ps2 (e.attacker_steamid.getD "") x
                e.dmg_health hmem2, hd2, hd1]
          have hct : hurtCredited s.players e = true := by
            unfold hurtCredited
            simp [hta, htv, hav, hst]
          simp [hct]
    · have hfv : truthyStr e.user_steamid = false := by simpa using htv
      rw [if_neg (by simp [hfv])] at hvref
      rw [hvref]
      have hcf : hurtCredited s.players e = false := by
        unfold hurtCredited
        simp [hfv]
      cases aref <;> (dsimp only; simp [hcf, hd2.trans hd1])
  · have hfa : truthyStr e.attacker_steamid = false := by simpa using hta
    rw [if_neg (by simp [hfa])] at haref
    rw [haref]
    have hcf : hurtCredited s.players e = false := by
      unfold hurtCredited
      simp [hfa]
    dsimp only
    simp [hcf, hd2.trans hd1]


/-- C1 (amended) witness: the rule applied to the concrete hurt event. -/
theorem c1_hurt_damage_rule_witness :
    damageOf (stepEvent initState evHurtAV).players "A" =
      damageOf initState.players "A" +
        (if hurtCredited initState.players evHurtAV = true ∧
            "A" = evHurtAV.attacker_steamid.getD ""
         then evHurtAV.dmg_health else 0) :=
  c1_hurt_damage_rule initState evHurtAV rfl "A"

/-- C1 counterexample: after `[evTeamA, evHurtAV]` the victim "V" has no
known side (`team = none`), yet attacker "A" is credited the 50 damage;
under the claim the total would have stayed 0. -/
theorem c1_unknown_side_damage_credited :
    ((sortByTick GEvent.tick [evTeamA, evHurtAV]).foldl stepEvent initState).players.map
        (fun p => (p.steamid, p.team, p.damage)) = [("A", some 2, 50), ("V", none, 0)] ∧
    (calculateMatchStats [evTeamA, evHurtAV]).players.map
        (fun p => (p.steamid, p.damage)) = [("A", 50)] :=
  ⟨by decide, by decide⟩

/-- The adr formula attached by `calculateMatchStats` to every returned
player record. -/
theorem adr_formula (events : List GEvent) (p : PlayerOut)
    (hp : p ∈ (calculateMatchStats events).players) :
    p.adr = if 0 < (calculateMatchStats events).totalRounds then
        toFixed1 ((p.damage : ℚ) / (calculateMatchStats events).totalRounds)
      else 0 := by
  unfold calculateMatchStats at hp ⊢
  rw [List.mem_map] at hp
  obtain ⟨q, hq, rfl⟩ := hp
  rfl

/-- One teamed player, one hurt for 50 damage, three T-won rounds. -/
def c8Events : List GEvent := [evTeamA, evHurtAV, evRoundT 3, evRoundT 4, evRoundT 5]

/-- The output record of player "A" after `[evTeamA]` alone: no damage,
no rounds, adr exactly 0. -/
def p0zero : PlayerOut := ⟨"A", "Alice", some 2, some 2, 0, 0, 0, 0, 0, 0⟩

/-- C8 counterexample: with 50 accumulated damage over 3 valid rounds the
reported adr is the one-decimal rounding 16.7, not the exact quotient
50/3, so "the adr field equals the player's accumulated damage divided by
the total number of valid rounds" fails as an exact equality. -/
theorem c8_adr_rounded_not_exact :
    (calculateMatchStats c8Events).totalRounds = 3 ∧
    (calculateMatchStats c8Events).players.map (fun p => (p.steamid, p.damage))
      = [("A", 50)] ∧
    (calculateMatchStats c8Events).players.map PlayerOut.adr = [167/10] ∧
    ((167:ℚ)/10) ≠ ((50:ℚ)/3) := by
  refine ⟨by decide, by decide, ?_, by norm_num⟩
  have h : (calculateMatchStats c8Events).players.map PlayerOut.adr
      = [toFixed1 (((50:ℕ) : ℚ) / ((3:ℕ) : ℚ))] := by rfl
  rw [h]
  norm_num [toFixed1]

/-- C8 (amended): for every player in the returned list, the adr field is
the accumulated damage divided by the number of valid rounds rounded to
one decimal (the numeric value JS `toFixed(1)` prints), and is exactly 0
(never NaN or undefined) when the valid-round count is 0. -/
theorem c8_adr_toFixed (events : List GEvent) (p : PlayerOut)
    (hp : p ∈ (calculateMatchStats events).players) :
    (0 < (calculateMatchStats events).totalRounds →
      p.adr = toFixed1 ((p.damage : ℚ) / (calculateMatchStats events).totalRounds)) ∧
    ((calculateMatchStats events).totalRounds = 0 → p.adr = 0) := by
  have h := adr_formula events p hp
  constructor
  · intro h0
    rw [h, if_pos h0]
  · intro h0
    rw [h, h0]
    norm_num

theorem c8_adr_toFixed_witness : p0zero.adr = 0 :=
  (c8_adr_toFixed [evTeamA] p0zero (List.mem_singleton.mpr rfl)).2 (by decide)

/-! ## The positions endpoint (server)

`GET /api/demos/:filename/positions` parses `startTick`, `endTick` and
`interval` with `parseInt`, rejects `NaN` start/end with HTTP 400, builds
the tick list with `for (let i = start; i <= end; i += step)`, then
assembles positions, kills, shots, grenades and bomb events. -/

inductive PosResp where
  | badRequest
  | okResp (ticks : List Int)
deriving Repr, DecidableEq

/-- The JS loop `for (let i = start; i <= end; i += step)`.  For the
positive steps the endpoint produces (`parseInt(interval) || 1`, and C9
and C10 concern `step = 1`) this is `s, s+step, …` up to `e`; an inverted
range yields the empty list.  (A negative step with `s ≤ e` would never
terminate in JS; the model returns `[]` there, and no theorem below
touches that case.) -/
def buildTicks (s e step : Int) : List Int :=
  if 0 < step ∧ s ≤ e then
    (List.range (((e - s).toNat / step.toNat) + 1)).map (fun i => s + step * i)
  else []

/-- JS `parseInt(interval) || 1`: `NaN` and `0` fall back to 1. -/
def jsStep (interval? : Option Int) : Int :=
  match interval? with
  | none => 1
  | some 0 => 1
  | some n => n

/-- The tick-range validation and tick-list construction of the positions
endpoint.  `none` for a parse result models `NaN` (a non-numeric query
parameter); `badRequest` is the HTTP 400 returned before any parsing or
reconstruction work. -/
def positionsTickQuery (startTick? endTick? interval? : Option Int) : PosResp :=
  match startTick?, endTick? with
  | some s, some e => .okResp (buildTicks s e (jsStep interval?))
  | _, _ => .badRequest

/-- C9 counterexample: the inverted numeric range 100..50 is not rejected
with a client error; the handler proceeds and computes an empty tick
list. -/
theorem c9_inverted_range_not_rejected :
    positionsTickQuery (some 100) (some 50) none = .okResp [] ∧
    positionsTickQuery (some 100) (some 50) none ≠ .badRequest := by
  constructor
  · show PosResp.okResp (buildTicks 100 50 1) = .okResp []
    rw [show buildTicks 100 50 1 = [] from by unfold buildTicks; rw [if_neg (by omega)]]
  · show PosResp.okResp (buildTicks 100 50 1) ≠ .badRequest
    intro h
    cases h

/-- C9 (amended): a non-numeric `startTick` or `endTick` (`parseInt`
returns `NaN`) is rejected with a client error before any computation;
an inverted numeric range is not rejected — the handler proceeds with an
empty tick list and returns a normal (empty) result. -/
theorem c9_malformed_query (a interval? : Option Int) (s e : Int) (h : e < s) :
    positionsTickQuery none a interval? = .badRequest ∧
    positionsTickQuery a none interval? = .badRequest ∧
    positionsTickQuery (some s) (some e) interval? = .okResp [] := by
  refine ⟨by cases a <;> rfl, by cases a <;> rfl, ?_⟩
  show PosResp.okResp (buildTicks s e (jsStep interval?)) = .okResp []
  rw [show buildTicks s e (jsStep interval?) = [] from by
    unfold buildTicks
    rw [if_neg (by omega)]]

theorem c9_malformed_query_witness :
    positionsTickQuery none (some 7) none = .badRequest ∧
    positionsTickQuery (some 7) none none = .badRequest ∧
    positionsTickQuery (some 100) (some 50) none = .okResp [] :=
  c9_malformed_query (some 7) none 100 50 (by norm_num)

/-! ### The kills list of the positions endpoint -/

/-- A `player_death` event, restricted to the fields the kills list reads. -/
structure DeathEvent where
  tick : Nat
  user_steamid : Option String := none
  user_name : Option String := none
  attacker_name : Option String := none
  weapon : Option String := none
  headshot : Bool := false
deriving Repr, DecidableEq

/-- A per-player per-tick record from `parseTicks` (fields the kills list
and the grenade matcher read; `steamid` is always present in tick data). -/
structure PosRec where
  tick : Nat
  steamid : String
  X : ℚ
  Y : ℚ
  Z : ℚ
deriving Repr, DecidableEq

structure KillRec where
  tick : Nat
  victimSteamId : Option String
  victimName : Option String
  attackerName : Option String
  weapon : Option String
  headshot : Bool
  x : ℚ
  y : ℚ
  z : ℚ
deriving Repr, DecidableEq

def mkKill (d : DeathEvent) (p : PosRec) : KillRec :=
  ⟨d.tick, d.user_steamid, d.user_name, d.attacker_name, d.weapon, d.headshot,
   p.X, p.Y, p.Z⟩

/-- The kills list: deaths restricted to the requested range, mapped to a
record when the victim has a snapshot at exactly the death tick and to
`null` otherwise, then the nulls are filtered out. -/
def killsList (positions : List PosRec) (deaths : List DeathEvent)
    (s e : Int) : List KillRec :=
  ((deaths.filter (fun d => decide (s ≤ (d.tick : Int)) && decide ((d.tick : Int) ≤ e))).map
      (fun d =>
        match positions.find? (fun p =>
            (p.tick == d.tick) && (some p.steamid == d.user_steamid)) with
        | some p => some (mkKill d p)
        | none => none)).filterMap id

/-- C10: the kills list contains exactly the in-range deaths whose victim
has a position record at precisely the death tick, each rendered with
that record's coordinates; a death with no victim snapshot at that exact
tick contributes no record at all. -/
theorem c10_kills_exact (positions : List PosRec) (deaths : List DeathEvent)
    (s e : Int) (k : KillRec) :
    k ∈ killsList positions deaths s e ↔
      ∃ d, d ∈ deaths ∧ (s ≤ (d.tick : Int) ∧ (d.tick : Int) ≤ e) ∧
        ∃ p, positions.find? (fun p =>
            (p.tick == d.tick) && (some p.steamid == d.user_steamid)) = some p ∧
          k = mkKill d p := by
  unfold killsList
  have hfn : (fun d : DeathEvent =>
      match positions.find? (fun p =>
          (p.tick == d.tick) && (some p.steamid == d.user_steamid)) with
      | some p => some (mkKill d p)
      | none => none) =
      fun d => (positions.find? (fun p =>
          (p.tick == d.tick) && (some p.steamid == d.user_steamid))).map (mkKill d) := by
    funext d
    cases positions.find? (fun p =>
        (p.tick == d.tick) && (some p.steamid == d.user_steamid)) <;> rfl
  rw [hfn]
  simp only [List.filterMap_map, List.mem_filterMap, List.mem_filter, Function.comp,
    id, Option.map_eq_some', decide_eq_true_eq, Bool.and_eq_true]
  constructor
  · rintro ⟨d, ⟨hd, h1, h2⟩, p, hp, hk⟩
    exact ⟨d, hd, ⟨h1, h2⟩, p, hp, hk.symm⟩
  · rintro ⟨d, hd, ⟨h1, h2⟩, p, hp, hk⟩
    exact ⟨d, ⟨hd, h1, h2⟩, p, hp, hk.symm⟩

/-! ### The grenade matcher of the positions endpoint -/

/-- A `grenade_thrown` event. -/
structure ThrowEv where
  tick : Nat
  user_steamid : Option String := none
  weapon : String := ""
deriving Repr, DecidableEq

/-- A detonation / ignition effect event. -/
structure DetEv where
  event_name : String
  tick : Nat
  user_steamid : Option String := none
  user_name : Option String := none
  x : ℚ := 0
  y : ℚ := 0
  z : ℚ := 0
deriving Repr, DecidableEq

/-- The `type` / `weaponMatch` classification chain of `relevantGrenades`. -/
def effectTypeMatch (name : String) : String × String :=
  if name == "smokegrenade_detonate" then ("smoke", "smokegrenade")
  else if name == "hegrenade_detonate" then ("he", "hegrenade")
  else if name == "flashbang_detonate" then ("flash", "flashbang")
  else if name == "inferno_startburn" then ("fire", "molotov")
  else ("unknown", "")

/-- The candidate filter: a throw qualifies for an effect when it is
strictly earlier, by the same thrower, and its weapon name contains the
category substring (for fire effects, `molotov` or `incgrenade`). -/
def throwQualifies (g : DetEv) (t : ThrowEv) : Bool :=
  decide (t.tick < g.tick) && (t.user_steamid == g.user_steamid) &&
    (strIncludes (effectTypeMatch g.event_name).2 t.weapon ||
      (((effectTypeMatch g.event_name).1 == "fire") && strIncludes "incgrenade" t.weapon))

/-- The throw matched to an effect: `thrownEvents` (sorted ascending by
tick) filtered by the candidate test, then `.pop()` — the last element. -/
def matchThrow (throws : List ThrowEv) (g : DetEv) : Option ThrowEv :=
  ((sortByTick ThrowEv.tick throws).filter (throwQualifies g)).getLast?

structure GrenadeOut where
  type : String
  tick : Nat
  x : ℚ
  y : ℚ
  z : ℚ
  throwerSteamId : Option String
  throwerName : Option String
  throwTick : Option Nat
  throwPos : Option (ℚ × ℚ × ℚ)
deriving Repr, DecidableEq

/-- One element of `relevantGrenades`: the effect with its matched throw
tick and, when the thrower has a snapshot at the throw tick, the throw
position. -/
def mkGrenadeOut (throws : List ThrowEv) (positions : List PosRec) (g : DetEv) :
    GrenadeOut :=
  let te := matchThrow throws g
  { type := (effectTypeMatch g.event_name).1
    tick := g.tick, x := g.x, y := g.y, z := g.z
    throwerSteamId := g.user_steamid
    throwerName := g.user_name
    throwTick := te.map ThrowEv.tick
    throwPos := te.bind (fun t =>
      (positions.find? (fun p =>
          (p.tick == t.tick) && (some p.steamid == t.user_steamid))).map
        (fun p => (p.X, p.Y, p.Z))) }

/-- The throws of the C5 example: a smoke at tick 100 and a flashbang at
tick 140 by the same thrower. -/
def throwsEx : List ThrowEv :=
  [⟨100, some "S", "smokegrenade"⟩, ⟨140, some "S", "flashbang"⟩]

/-- The smoke detonation at tick 260 of the C5 example. -/
def smokeDetEx : DetEv := ⟨"smokegrenade_detonate", 260, some "S", none, 0, 0, 0⟩

/-- C5: a throw selected by the matcher qualifies (strictly earlier tick,
same thrower, category-matching weapon name) and has the greatest tick
among all qualifying throws; when no throw qualifies, `throwTick` and
`throwPos` are both null; and in the concrete scenario — throws at ticks
100 (smoke) and 140 (flash) by the same thrower, smoke detonation at
tick 260 — the tick-100 throw is selected. -/
theorem c5_grenade_matcher (throws : List ThrowEv) (positions : List PosRec)
    (g : DetEv) :
    (∀ t0, matchThrow throws g = some t0 →
      throwQualifies g t0 = true ∧ t0 ∈ throws ∧
        ∀ t ∈ throws, throwQualifies g t = true → t.tick ≤ t0.tick) ∧
    (matchThrow throws g = none →
      (mkGrenadeOut throws positions g).throwTick = none ∧
      (mkGrenadeOut throws positions g).throwPos = none) ∧
    (matchThrow throwsEx smokeDetEx = some ⟨100, some "S", "smokegrenade"⟩) := by
  refine ⟨?_, ?_, by decide⟩
  · intro t0 h0
    have hmemf : t0 ∈ (sortByTick ThrowEv.tick throws).filter (throwQualifies g) :=
      memOfGetLast _ t0 h0
    have hq : throwQualifies g t0 = true := (List.mem_filter.mp hmemf).2
    have hms : t0 ∈ sortByTick ThrowEv.tick throws := (List.mem_filter.mp hmemf).1
    refine ⟨hq, (sortByTick_perm ThrowEv.tick throws).mem_iff.mp hms, ?_⟩
    intro t ht htq
    have hpw : ((sortByTick ThrowEv.tick throws).filter (throwQualifies g)).Pairwise
        (fun a b => ThrowEv.tick a ≤ ThrowEv.tick b) :=
      List.Pairwise.sublist (List.filter_sublist _)
        (sortByTick_pairwise ThrowEv.tick throws)
    have htf : t ∈ (sortByTick ThrowEv.tick throws).filter (throwQualifies g) :=
      List.mem_filter.mpr
        ⟨(sortByTick_perm ThrowEv.tick throws).mem_iff.mpr ht, htq⟩
    exact getLast?_tick_ge ThrowEv.tick _ hpw t0 h0 t htf
  · intro h
    unfold mkGrenadeOut
    rw [h]
    exact ⟨rfl, rfl⟩

theorem c5_grenade_matcher_witness :
    (throwQualifies smokeDetEx ⟨100, some "S", "smokegrenade"⟩ = true ∧
      (⟨100, some "S", "smokegrenade"⟩ : ThrowEv) ∈ throwsEx ∧
      ∀ t ∈ throwsEx, throwQualifies smokeDetEx t = true →
        t.tick ≤ (⟨100, some "S", "smokegrenade"⟩ : ThrowEv).tick) ∧
    ((mkGrenadeOut [] [] smokeDetEx).throwTick = none ∧
      (mkGrenadeOut [] [] smokeDetEx).throwPos = none) :=
  ⟨(c5_grenade_matcher throwsEx [] smokeDetEx).1 ⟨100, some "S", "smokegrenade"⟩
      (by decide),
   (c5_grenade_matcher [] [] smokeDetEx).2.1 (by decide)⟩

/-! ### The blind-duration computation of the positions endpoint -/

/-- A `player_blind` event (`blind_duration` in seconds; may be absent,
in which case the code falls back to 0 via `|| 0`). -/
structure BlindEv where
  tick : Nat
  user_steamid : Option String := none
  blind_duration : Option ℚ := none
deriving Repr, DecidableEq

/-- The per-player flash-duration loop: over the blind events, for each
event of this player with `pos.tick` in `[blind.tick, blindEndTick)`
(where `blindEndTick = blind.tick + blind_duration * 64` at 64 ticks per
second), keep the maximum remaining duration `(blindEndTick − tick)/64`. -/
def flashDurationAt (blinds : List BlindEv) (steamid : String) (tick : Nat) : ℚ :=
  blinds.foldl (fun acc b =>
    if b.user_steamid == some steamid then
      if (tick : ℚ) ≥ (b.tick : ℚ) ∧
          (tick : ℚ) < (b.tick : ℚ) + (b.blind_duration.getD 0) * 64 then
        max acc ((((b.tick : ℚ) + (b.blind_duration.getD 0) * 64) - (tick : ℚ)) / 64)
      else acc
    else acc) 0

/-- Output field `flash_duration`: the computed value when positive and
absent (`undefined`) otherwise. -/
def reportedFlash (blinds : List BlindEv) (steamid : String) (tick : Nat) : Option ℚ :=
  if flashDurationAt blinds steamid tick > 0 then
    some (flashDurationAt blinds steamid tick)
  else none

/-- A blind event covers the queried tick for this player. -/
def blindCovers (b : BlindEv) (steamid : String) (tick : Nat) : Bool :=
  (b.user_steamid == some steamid) &&
    decide ((tick : ℚ) ≥ (b.tick : ℚ) ∧
      (tick : ℚ) < (b.tick : ℚ) + (b.blind_duration.getD 0) * 64)

/-- The remaining duration of a blind event at the queried tick. -/
def blindRemaining (b : BlindEv) (tick : Nat) : ℚ :=
  (((b.tick : ℚ) + (b.blind_duration.getD 0) * 64) - (tick : ℚ)) / 64

theorem flashDurationAt_foldl (blinds : List BlindEv) (steamid : String) (tick : Nat) :
    ∀ acc : ℚ,
      blinds.foldl (fun acc b =>
        if b.user_steamid == some steamid then
          if (tick : ℚ) ≥ (b.tick : ℚ) ∧
              (tick : ℚ) < (b.tick : ℚ) + (b.blind_duration.getD 0) * 64 then
            max acc ((((b.tick : ℚ) + (b.blind_duration.getD 0) * 64) - (tick : ℚ)) / 64)
          else acc
        else acc) acc =
      (blinds.filter (fun b => blindCovers b steamid tick)).foldl
        (fun acc b => max acc (blindRemaining b tick)) acc := by
  induction blinds with
  | nil => intro acc; rfl
  | cons b bs ih =>
    intro acc
    rw [List.foldl_cons, List.filter_cons]
    by_cases hsid : (b.user_steamid == some steamid) = true
    · by_cases hcov : (tick : ℚ) ≥ (b.tick : ℚ) ∧
          (tick : ℚ) < (b.tick : ℚ) + (b.blind_duration.getD 0) * 64
      · rw [if_pos hsid, if_pos hcov,
            if_pos (show blindCovers b steamid tick = true by
              unfold blindCovers
              rw [hsid, decide_eq_true hcov]
              rfl),
            List.foldl_cons]
        exact ih _
      · rw [if_pos hsid, if_neg hcov,
            if_neg (show ¬ blindCovers b steamid tick = true by
              unfold blindCovers
              rw [hsid, decide_eq_false hcov]
              simp)]
        exact ih acc
    · rw [if_neg hsid,
          if_neg (show ¬ blindCovers b steamid tick = true by
            unfold blindCovers
            intro hcontra
            exact hsid (Bool.and_eq_true_iff.mp hcontra).1)]
      exact ih acc

theorem le_foldl_max_acc {α : Type} (f : α → ℚ) :
    ∀ (l : List α) (acc : ℚ), acc ≤ l.foldl (fun a x => max a (f x)) acc := by
  intro l
  induction l with
  | nil => intro acc; exact le_refl _
  | cons x xs ih =>
    intro acc
    rw [List.foldl_cons]
    exact le_trans (le_max_left acc (f x)) (ih _)

theorem foldl_max_le {α : Type} (f : α → ℚ) :
    ∀ (l : List α) (acc : ℚ) (b : α), b ∈ l →
      f b ≤ l.foldl (fun a x => max a (f x)) acc := by
  intro l
  induction l with
  | nil => intro acc b hb; cases hb
  | cons x xs ih =>
    intro acc b hb
    rw [List.foldl_cons]
    rcases List.mem_cons.mp hb with hb' | hb'
    · subst hb'
      exact le_trans (le_max_right acc (f b)) (le_foldl_max_acc f xs _)
    · exact ih _ b hb'

theorem foldl_max_mem {α : Type} (f : α → ℚ) :
    ∀ (l : List α) (acc : ℚ),
      l.foldl (fun a x => max a (f x)) acc = acc ∨
        ∃ b ∈ l, l.foldl (fun a x => max a (f x)) acc = f b := by
  intro l
  induction l with
  | nil => intro acc; exact Or.inl rfl
  | cons x xs ih =>
    intro acc
    rw [List.foldl_cons]
    rcases ih (max acc (f x)) with h | ⟨b, hb, h⟩
    · rw [h]
      rcases max_choice acc (f x) with hm | hm
      · exact Or.inl hm
      · exact Or.inr ⟨x, List.mem_cons_self x xs, hm⟩
    · exact Or.inr ⟨b, List.mem_cons_of_mem x hb, h⟩

/-- The blind event of the C6 example: tick 1000, 2.5 s duration. -/
def blindEx : BlindEv := ⟨1000, some "P", some (5/2)⟩

/-- C6: the computed remaining blind duration is an upper bound for, and
(unless 0) attained by, the per-event remaining durations
`(endTick − t)/64` over the events covering the queried tick with
`endTick = startTick + duration × 64`; when no event covers the tick the
output field is absent; and a blind at tick 1000 with 2.5 s duration at
64 ticks/s reports 0.9375 s at tick 1100 and nothing at tick 1200. -/
theorem c6_blind_duration (blinds : List BlindEv) (sid : String) (t : Nat) :
    (∀ b ∈ blinds, blindCovers b sid t = true →
      blindRemaining b t ≤ flashDurationAt blinds sid t) ∧
    (flashDurationAt blinds sid t = 0 ∨
      ∃ b ∈ blinds, blindCovers b sid t = true ∧
        flashDurationAt blinds sid t = blindRemaining b t) ∧
    ((∀ b ∈ blinds, blindCovers b sid t = false) →
      reportedFlash blinds sid t = none) ∧
    (reportedFlash [blindEx] "P" 1100 = some (15/16)) ∧
    (reportedFlash [blindEx] "P" 1200 = none) := by
  have hchar : flashDurationAt blinds sid t =
      (blinds.filter (fun b => blindCovers b sid t)).foldl
        (fun acc b => max acc (blindRemaining b t)) 0 :=
    flashDurationAt_foldl blinds sid t 0
  refine ⟨?_, ?_, ?_, ?_, ?_⟩
  · intro b hb hcov
    rw [hchar]
    exact foldl_max_le (fun b => blindRemaining b t) _ 0 b
      (List.mem_filter.mpr ⟨hb, hcov⟩)
  · rw [hchar]
    rcases foldl_max_mem (fun b => blindRemaining b t)
        (blinds.filter (fun b => blindCovers b sid t)) 0 with h | ⟨b, hb, h⟩
    · exact Or.inl h
    · exact Or.inr ⟨b, (List.mem_filter.mp hb).1, (List.mem_filter.mp hb).2, h⟩
  · intro hnone
    have hempty : blinds.filter (fun b => blindCovers b sid t) = [] := by
      rw [List.filter_eq_nil_iff]
      intro b hb
      rw [hnone b hb]
      simp
    unfold reportedFlash
    rw [if_neg]
    rw [hchar, hempty]
    norm_num
  · unfold reportedFlash flashDurationAt blindEx
    norm_num
  · unfold reportedFlash flashDurationAt blindEx
    norm_num

theorem c6_blind_duration_witness :
    (blindRemaining blindEx 1100 ≤ flashDurationAt [blindEx] "P" 1100) ∧
    (reportedFlash [] "P" 1100 = none) :=
  ⟨(c6_blind_duration [blindEx] "P" 1100).1 blindEx (List.mem_singleton.mpr rfl)
      (by simp only [blindCovers, blindEx, Bool.and_eq_true, beq_iff_eq,
            decide_eq_true_eq]
          norm_num),
   (c6_blind_duration [] "P" 1100).2.2.1 (fun b hb => absurd hb (List.not_mem_nil b))⟩

/-! ## Yaw interpolation (client, `RoundVisualizer.tsx`)

```js
let diffYaw = pUpper.yaw - pLower.yaw;
// Shortest path interpolation
if (diffYaw > 180) diffYaw -= 360;
if (diffYaw < -180) diffYaw += 360;
const curYaw = pLower.yaw + diffYaw * lerpFactor;
```
-/

/-- The two sequential wrap corrections applied to the yaw difference. -/
def wrapYawDiff (a b : ℚ) : ℚ :=
  let d := b - a
  let d2 := if d > 180 then d - 360 else d
  if d2 < -180 then d2 + 360 else d2

/-- The interpolated yaw `pLower.yaw + diffYaw * lerpFactor`. -/
def lerpYaw (a b f : ℚ) : ℚ := a + wrapYawDiff a b * f

/-- Modelled from the spec: wrapping a one-turn difference into the
half-open interval (−180°, 180°] (sends −180 to +180). -/
def specWrapHalfOpen (d : ℚ) : ℚ :=
  if d > 180 then d - 360 else if d ≤ -180 then d + 360 else d

/-- C7 counterexample: for a difference of exactly −180° the code keeps
−180, which lies outside the claimed interval (−180°, 180°]; the spec
wrap would give +180, and the two interpolate through opposite
half-circles (−90 versus +90 at the midpoint). -/
theorem c7_wrap_boundary_cex :
    wrapYawDiff 0 (-180) = -180 ∧
    ¬(-180 : ℚ) < wrapYawDiff 0 (-180) ∧
    specWrapHalfOpen ((-180) - 0) = 180 ∧
    wrapYawDiff 0 (-180) ≠ specWrapHalfOpen ((-180) - 0) ∧
    lerpYaw 0 (-180) (1/2) = -90 := by
  norm_num [wrapYawDiff, specWrapHalfOpen, lerpYaw]

/-- C7 (amended): for yaws within [−180°, 180°] the wrapped difference
lies in the closed interval [−180°, 180°] and differs from the raw
difference by a multiple of 360°; it agrees with the (−180°, 180°] wrap
except when the raw difference is exactly −180°, which stays at −180°.
Interpolating from 170° to −170° uses the wrapped difference +20°, so the
yaw moves linearly from 170° to 190° (through ±180°), never through 0°. -/
theorem c7_yaw_interpolation (a b f : ℚ) (ha1 : -180 ≤ a) (ha2 : a ≤ 180)
    (hb1 : -180 ≤ b) (hb2 : b ≤ 180) :
    (-180 ≤ wrapYawDiff a b ∧ wrapYawDiff a b ≤ 180) ∧
    (wrapYawDiff a b = b - a ∨ wrapYawDiff a b = b - a - 360 ∨
      wrapYawDiff a b = b - a + 360) ∧
    (b - a ≠ -180 → wrapYawDiff a b = specWrapHalfOpen (b - a)) ∧
    (wrapYawDiff 170 (-170) = 20) ∧
    (lerpYaw 170 (-170) f = 170 + 20 * f) ∧
    (0 ≤ f → f ≤ 1 →
      170 ≤ lerpYaw 170 (-170) f ∧ lerpYaw 170 (-170) f ≤ 190) := by
  have h20 : wrapYawDiff 170 (-170) = 20 := by norm_num [wrapYawDiff]
  have hlerp : lerpYaw 170 (-170) f = 170 + 20 * f := by
    unfold lerpYaw
    rw [h20]
  refine ⟨?_, ?_, ?_, h20, hlerp, ?_⟩
  · unfold wrapYawDiff
    dsimp only
    split_ifs <;> constructor <;> linarith
  · unfold wrapYawDiff
    dsimp only
    split_ifs with h1 h2 h3
    · exact Or.inr (Or.inl (by linarith))
    · exact Or.inr (Or.inl rfl)
    · exact Or.inr (Or.inr rfl)
    · exact Or.inl rfl
  · intro hne
    unfold wrapYawDiff specWrapHalfOpen
    dsimp only
    split_ifs <;>
      first
        | rfl
        | linarith
        | exact absurd (by linarith : b - a = -180) hne
  · intro hf1 hf2
    rw [hlerp]
    constructor <;> nlinarith

theorem c7_yaw_interpolation_witness :
    ((-180 ≤ wrapYawDiff 170 (-170) ∧ wrapYawDiff 170 (-170) ≤ 180) ∧
      (wrapYawDiff 170 (-170) = (-170) - 170 ∨
        wrapYawDiff 170 (-170) = (-170) - 170 - 360 ∨
        wrapYawDiff 170 (-170) = (-170) - 170 + 360) ∧
      ((-170 : ℚ) - 170 ≠ -180 → wrapYawDiff 170 (-170) = specWrapHalfOpen ((-170) - 170)) ∧
      (wrapYawDiff 170 (-170) = 20) ∧
      (lerpYaw 170 (-170) (1/2) = 170 + 20 * (1/2)) ∧
      (0 ≤ (1/2 : ℚ) → (1/2 : ℚ) ≤ 1 →
        170 ≤ lerpYaw 170 (-170) (1/2) ∧ lerpYaw 170 (-170) (1/2) ≤ 190)) ∧
    170 ≤ lerpYaw 170 (-170) (1/2) :=
  ⟨c7_yaw_interpolation 170 (-170) (1/2) (by norm_num) (by norm_num) (by norm_num)
      (by norm_num),
   ((c7_yaw_interpolation 170 (-170) (1/2) (by norm_num) (by norm_num) (by norm_num)
      (by norm_num)).2.2.2.2.2 (by norm_num) (by norm_num)).1⟩

/-! ## Bomb state resolution (client, `RoundVisualizer.tsx`)

The render loop filters the bomb events to those at or before the current
tick, sorts ascending by tick, pops the latest, and maps it to a status;
for `bomb_exploded`/`bomb_defused` it recovers the position through
`bombEvents.find(e => e.event_name === 'bomb_planted' && e.tick <= latest.tick)`,
which (on the tick-sorted list the server sends) is the FIRST matching
plant event, not the last. -/

structure CBombEvent where
  event_name : String
  tick : Nat
  user_steamid : Option String := none
  x : Option ℚ := none
  y : Option ℚ := none
deriving Repr, DecidableEq

structure BombState where
  bombStatus : String
  carrierId : Option String
  bombPos : Option (ℚ × ℚ)
deriving Repr, DecidableEq

/-- Truthiness guard `e.x && e.y` followed by `{ x: e.x, y: e.y }`:
the position of a bomb event, `none` when a coordinate is absent or 0. -/
def bombEventPos (e : CBombEvent) : Option (ℚ × ℚ) :=
  if truthyQ e.x && truthyQ e.y then some (e.x.getD 0, e.y.getD 0) else none

/-- The plant-position lookup used by the explode/defuse branches. -/
def firstPlantAtOrBefore (events : List CBombEvent) (tick : Nat) : Option CBombEvent :=
  events.find? (fun e2 => (e2.event_name == "bomb_planted") && decide (e2.tick ≤ tick))

/-- The bomb-state resolver of the render loop. -/
def resolveBombState (events : List CBombEvent) (currentTick : Nat) : BombState :=
  match (sortByTick CBombEvent.tick
      (events.filter (fun e => decide (e.tick ≤ currentTick)))).getLast? with
  | none => ⟨"none", none, none⟩
  | some l =>
    if l.event_name == "bomb_pickup" then ⟨"carried", l.user_steamid, none⟩
    else if l.event_name == "bomb_dropped" then ⟨"dropped", none, bombEventPos l⟩
    else if l.event_name == "bomb_planted" then ⟨"planted", none, bombEventPos l⟩
    else if l.event_name == "bomb_exploded" then
      ⟨"exploded", none, (firstPlantAtOrBefore events l.tick).bind bombEventPos⟩
    else if l.event_name == "bomb_defused" then
      ⟨"defused", none, (firstPlantAtOrBefore events l.tick).bind bombEventPos⟩
    else ⟨"none", none, none⟩

/-- Modelled from the spec: the most recent `bomb_planted` event at or
before the given tick (the event list is sorted ascending by tick, so
this is the last matching element). -/
def specMostRecentPlant (events : List CBombEvent) (tick : Nat) : Option CBombEvent :=
  (events.filter (fun e2 =>
    (e2.event_name == "bomb_planted") && decide (e2.tick ≤ tick))).getLast?

/-- Two plant/explode cycles in one queried range (tick-sorted, as the
server sends them). -/
def bombCex : List CBombEvent :=
  [⟨"bomb_planted", 80, some "P1", some 5, some 6⟩,
   ⟨"bomb_exploded", 200, none, none, none⟩,
   ⟨"bomb_planted", 300, some "P2", some 7, some 8⟩,
   ⟨"bomb_exploded", 400, none, none, none⟩]

/-- C4 counterexample: at query tick 400 the latest event is the second
explosion, but the resolver backfills the position from the FIRST plant
(tick 80, position (5,6)) rather than the most recent preceding plant
(tick 300, position (7,8)) as the claim states. -/
theorem c4_first_plant_not_most_recent :
    resolveBombState bombCex 400 = ⟨"exploded", none, some (5, 6)⟩ ∧
    (specMostRecentPlant bombCex 400).bind bombEventPos = some (7, 8) ∧
    (some ((5:ℚ), (6:ℚ)) : Option (ℚ × ℚ)) ≠ some (7, 8) := by
  refine ⟨by rfl, by rfl, by decide⟩

/-- The C4 scenario: pickup(10) → drop(50, pos (1,2)) → plant(80, pos
(3,4)) → explode(200). -/
def bombScenario : List CBombEvent :=
  [⟨"bomb_pickup", 10, some "P", none, none⟩,
   ⟨"bomb_dropped", 50, some "P", some 1, some 2⟩,
   ⟨"bomb_planted", 80, some "P", some 3, some 4⟩,
   ⟨"bomb_exploded", 200, none, none, none⟩]

/-- C4 (amended): the explode/defuse position is backfilled from the
first plant event at or before the resolving event (which coincides with
the most recent one whenever a single plant precedes it); in the
pickup(10) → drop(50, A) → plant(80, B) → explode(200) scenario, every
query tick ≥ 200 resolves to Exploded with the plant position B = (3,4),
not the drop position A = (1,2). -/
theorem c4_bomb_explode_plant_pos (q : Nat) (hq : 200 ≤ q) :
    resolveBombState bombScenario q = ⟨"exploded", none, some (3, 4)⟩ ∧
    (resolveBombState bombScenario q).bombPos ≠ some (1, 2) ∧
    resolveBombState bombCex 400 =
      ⟨"exploded", none, (firstPlantAtOrBefore bombCex 400).bind bombEventPos⟩ := by
  have d10 : decide ((10:Nat) ≤ q) = true := decide_eq_true (by omega)
  have d50 : decide ((50:Nat) ≤ q) = true := decide_eq_true (by omega)
  have d80 : decide ((80:Nat) ≤ q) = true := decide_eq_true (by omega)
  have d200 : decide ((200:Nat) ≤ q) = true := decide_eq_true (by omega)
  have hfilter : bombScenario.filter (fun e => decide (e.tick ≤ q)) = bombScenario := by
    simp only [bombScenario, List.filter_cons, List.filter_nil]
    rw [show decide ((CBombEvent.mk "bomb_pickup" 10 (some "P") none none).tick ≤ q)
          = true from d10,
        show decide ((CBombEvent.mk "bomb_dropped" 50 (some "P") (some 1) (some 2)).tick ≤ q)
          = true from d50,
        show decide ((CBombEvent.mk "bomb_planted" 80 (some "P") (some 3) (some 4)).tick ≤ q)
          = true from d80,
        show decide ((CBombEvent.mk "bomb_exploded" 200 none none none).tick ≤ q)
          = true from d200]
    rfl
  have hres : resolveBombState bombScenario q = ⟨"exploded", none, some (3, 4)⟩ := by
    unfold resolveBombState
    rw [hfilter]
    rfl
  refine ⟨hres, ?_, by rfl⟩
  rw [hres]
  decide

theorem c4_bomb_explode_plant_pos_witness :
    resolveBombState bombScenario 200 = ⟨"exploded", none, some (3, 4)⟩ ∧
    (resolveBombState bombScenario 200).bombPos ≠ some (1, 2) :=
  ⟨(c4_bomb_explode_plant_pos 200 (le_refl 200)).1,
   (c4_bomb_explode_plant_pos 200 (le_refl 200)).2.1⟩

end DemoViewer
